import Mathlib

/-
Verification of the BM25Retriever adapter (src/camel/retrievers/bm25_retriever.py)
against its natural-language specification.

Shallow embedding conventions:
* The external document loader and chunker (UnstructuredIO.parse_file_or_url and
  chunk_elements) are collaborators outside this file; their combined outcome is
  passed to `process` as an `Except String (List Chunk)` argument.
* The external rank_bm25 BM25Okapi index is modelled from the spec (section 4.3):
  it stores the tokenized corpus and derives all statistics from it.  The
  floating-point natural logarithm used by the IDF formula is represented by an
  explicit function parameter `lg : Rat → Rat`; every property proved below holds
  for an arbitrary `lg`, and witnesses instantiate it concretely.  All other
  floating-point arithmetic is modelled over the rationals.
* np.argpartition(scores, -top_k)[-top_k:] is modelled by its documented
  contract: it raises when the kth index (here -top_k) is out of bounds, and
  otherwise yields a permutation of the index positions in which the entry at
  position kth separates the smaller-or-equal scores from the
  larger-or-equal ones; the order inside each side is left unspecified by
  numpy.  The predicate IsArgpartition captures exactly that contract, and
  theorems about order quantify over every permutation satisfying it.  The
  executable query function realises one contract-valid outcome, the full
  stable ascending argsort.
* Python's list.sort(key=..., reverse=True) is a stable sort by score
  descending; it is modelled as insertion sort under the non-strict
  score-descending comparison, which is stable, and therefore preserves
  whatever order among equal scores the argpartition outcome emitted.
* The final sort in the source acts on the formatted dictionaries, keyed on the
  'similarity score' entry; since formatting preserves the score of each index,
  the model sorts the indices first and maps the formatter afterwards, which
  yields the same list.
-/

namespace CamelBM25

/-- A document chunk as delivered by the external loader: its text (the Python
str of the element) and its metadata mapping (the value of metadata.to_dict()). -/
structure Chunk where
  text : String
  metadata : List (String × String)
deriving DecidableEq

/-- str(chunk): the text of the chunk. -/
def chunkStr (c : Chunk) : String := c.text

/-- The separator of the naive split: the space character U+0020. -/
def sepChar : Char := Char.ofNat 32

/-- Python str.split(sep) for a one-character separator, over the character
list of the string: cuts at every separator occurrence, keeping empty pieces,
so that the empty string yields one empty token and adjacent separators yield
empty tokens, exactly as the Python builtin does. -/
def splitChars (sep : Char) : List Char → List (List Char)
  | [] => [[]]
  | c :: rest =>
      if c = sep then [] :: splitChars sep rest
      else
        match splitChars sep rest with
        | [] => [[c]]
        | t :: ts => (c :: t) :: ts

/-- Joining a token list with the separator between consecutive tokens. -/
def joinSep (sep : Char) : List (List Char) → List Char
  | [] => []
  | [t] => t
  | t :: ts => t ++ sep :: joinSep sep ts

/-- Tokenization applied to every chunk in process: str(chunk).split(" "). -/
def processTokenize (s : String) : List String :=
  (splitChars sepChar s.data).map String.mk

/-- Tokenization applied to the query string in query: query.split(" "). -/
def queryTokenize (s : String) : List String :=
  (splitChars sepChar s.data).map String.mk

/-- Modelled from the spec: the external rank_bm25 BM25Okapi index, holding the
tokenized corpus; the statistics below are derived from it. -/
structure BM25Okapi where
  corpus : List (List String)
deriving DecidableEq

/-- N: the total number of documents in the corpus. -/
def corpusSize (m : BM25Okapi) : Nat := m.corpus.length

/-- len(doc): the token count of one document. -/
def docLen (d : List String) : ℚ := (d.length : ℚ)

/-- Modelled from the spec: avgLen, the average document length, 0 for an
empty corpus. -/
def avgdl (m : BM25Okapi) : ℚ :=
  if m.corpus.length = 0 then 0 else (m.corpus.map docLen).sum / (m.corpus.length : ℚ)

/-- df(term): the number of documents containing the term at least once. -/
def df (m : BM25Okapi) (t : String) : Nat :=
  (m.corpus.filter (fun d => d.contains t)).length

/-- Modelled from the spec: IDF(term) = ln((N - df + 0.5) / (df + 0.5) + 1),
with ln represented by the parameter lg. -/
def idf (lg : ℚ → ℚ) (m : BM25Okapi) (t : String) : ℚ :=
  lg ((((corpusSize m : ℚ) - (df m t : ℚ) + 1/2) / ((df m t : ℚ) + 1/2)) + 1)

/-- The k1 parameter of BM25Okapi (default 1.5). -/
def k1 : ℚ := 3 / 2

/-- The b parameter of BM25Okapi (default 0.75). -/
def bParam : ℚ := 3 / 4

/-- tf(term, doc): the number of occurrences of the term in the document. -/
def tf (d : List String) (t : String) : ℚ := (d.count t : ℚ)

/-- Modelled from the spec: the contribution of a single query term to the
score of one document,
IDF(term) * (tf * (k1 + 1)) / (tf + k1 * (1 - b + b * len(doc) / avgLen)). -/
def termScore (lg : ℚ → ℚ) (m : BM25Okapi) (t : String) (d : List String) : ℚ :=
  idf lg m t * (tf d t * (k1 + 1)) /
    (tf d t + k1 * (1 - bParam + bParam * docLen d / avgdl m))

/-- Modelled from the spec: the BM25 score of one document is the sum of the
contributions of all query terms. -/
def scoreDoc (lg : ℚ → ℚ) (m : BM25Okapi) (qts : List String) (d : List String) : ℚ :=
  (qts.map (fun t => termScore lg m t d)).sum

/-- bm25.get_scores(processed_query): one score per document, in corpus order. -/
def getScores (lg : ℚ → ℚ) (m : BM25Okapi) (qts : List String) : List ℚ :=
  m.corpus.map (scoreDoc lg m qts)

/-- The state of a BM25Retriever object: the optional bm25 index, the stored
content_input_path and the stored chunk list. -/
structure BM25Retriever where
  bm25 : Option BM25Okapi
  content_input_path : String
  chunks : List Chunk
deriving DecidableEq

/-- The state produced by BM25Retriever.__init__. -/
def BM25Retriever.init : BM25Retriever :=
  { bm25 := none, content_input_path := "", chunks := [] }

/-- DEFAULT_TOP_K_RESULTS = 1. -/
def DEFAULT_TOP_K_RESULTS : Int := 1

/-- BM25Okapi([str(chunk).split(" ") for chunk in chunks]): the index built at
the end of process. -/
def builtIndex (chunks : List Chunk) : BM25Okapi :=
  { corpus := chunks.map (fun c => processTokenize (chunkStr c)) }

/-- process: first stores content_input_path, then runs the external loader and
chunker (their outcome is the `loaded` argument), then stores the chunks and
builds the bm25 index.  The returned pair is (raised error if any, retriever
state after the call), so the effect of a failing call on the state is visible.
Mirrors the statement order of the source: the path assignment happens before
the loader runs, so it survives a loader failure. -/
def process (r : BM25Retriever) (content_input_path : String)
    (loaded : Except String (List Chunk)) : Option String × BM25Retriever :=
  let r1 := { r with content_input_path := content_input_path }
  match loaded with
  | Except.error e => (some e, r1)
  | Except.ok cs =>
      let r2 := { r1 with chunks := cs }
      (none, { r2 with bm25 := some (builtIndex cs) })

/-- The distinguishable errors query can raise: the explicit top_k check, the
explicit model-not-initialized check, and the ValueError numpy argpartition
raises when the kth index is out of bounds. -/
inductive QueryError where
  | invalidTopK
  | notInitialized
  | argpartitionKthOutOfBounds
deriving DecidableEq

/-- A value stored in a result dictionary: a score, a string, or a metadata
mapping. -/
inductive ResultValue where
  | num (q : ℚ)
  | str (s : String)
  | dict (m : List (String × String))
deriving DecidableEq

/-- scores[i], with 0 as the (never used) out-of-range default. -/
def scoreAt (scores : List ℚ) (i : Nat) : ℚ := scores.getD i 0

/-- Index order ascending by score, ties by ascending index: the total order
realising the stable ascending argsort of the scores. -/
def lexAsc (scores : List ℚ) (i j : Nat) : Prop :=
  scoreAt scores i < scoreAt scores j ∨ (scoreAt scores i = scoreAt scores j ∧ i ≤ j)

/-- The comparison of the final sort of the source: score of i at least score
of j, with no knowledge of the indices themselves. -/
def scoreGe (scores : List ℚ) (i j : Nat) : Prop :=
  scoreAt scores j ≤ scoreAt scores i

/-- Strictly descending score with equal scores broken by strictly ascending
index: the order the claim asserts for the returned results. -/
def lexDescStrict (scores : List ℚ) (i j : Nat) : Prop :=
  scoreAt scores j < scoreAt scores i ∨ (scoreAt scores i = scoreAt scores j ∧ i < j)

instance lexAscDecidable (scores : List ℚ) : DecidableRel (lexAsc scores) := fun i j => by
  unfold lexAsc; infer_instance

instance scoreGeDecidable (scores : List ℚ) : DecidableRel (scoreGe scores) := fun i j => by
  unfold scoreGe; infer_instance

instance lexDescStrictDecidable (scores : List ℚ) : DecidableRel (lexDescStrict scores) :=
  fun i j => by unfold lexDescStrict; infer_instance

instance lexAscTotal (scores : List ℚ) : IsTotal Nat (lexAsc scores) := by
  constructor
  intro i j
  unfold lexAsc
  rcases lt_trichotomy (scoreAt scores i) (scoreAt scores j) with h | h | h
  · exact Or.inl (Or.inl h)
  · rcases Nat.le_total i j with hij | hij
    · exact Or.inl (Or.inr ⟨h, hij⟩)
    · exact Or.inr (Or.inr ⟨h.symm, hij⟩)
  · exact Or.inr (Or.inl h)

instance lexAscTrans (scores : List ℚ) : IsTrans Nat (lexAsc scores) := by
  constructor
  intro i j k hij hjk
  unfold lexAsc at hij hjk ⊢
  rcases hij with h1 | ⟨e1, l1⟩ <;> rcases hjk with h2 | ⟨e2, l2⟩
  · exact Or.inl (h1.trans h2)
  · exact Or.inl (by rw [← e2]; exact h1)
  · exact Or.inl (by rw [e1]; exact h2)
  · exact Or.inr ⟨e1.trans e2, Nat.le_trans l1 l2⟩

instance scoreGeTotal (scores : List ℚ) : IsTotal Nat (scoreGe scores) := by
  constructor
  intro i j
  unfold scoreGe
  rcases le_total (scoreAt scores j) (scoreAt scores i) with h | h
  · exact Or.inl h
  · exact Or.inr h

instance scoreGeTrans (scores : List ℚ) : IsTrans Nat (scoreGe scores) := by
  constructor
  intro i j k hij hjk
  unfold scoreGe at hij hjk ⊢
  exact le_trans hjk hij

/-- The documented contract of np.argpartition(scores, kth): the output is a
permutation of all index positions, kth is in bounds, the entry at position
kth carries a score at least every score at an earlier position and at most
every score at a later position.  Nothing more is guaranteed: the order inside
each side, in particular among equal scores, is unspecified. -/
def IsArgpartition (scores : List ℚ) (kth : Nat) (perm : List Nat) : Prop :=
  perm.Perm (List.range scores.length) ∧
  kth < perm.length ∧
  (∀ p, p < kth → scoreAt scores (perm.getD p 0) ≤ scoreAt scores (perm.getD kth 0)) ∧
  (∀ q, q < perm.length → kth < q →
    scoreAt scores (perm.getD kth 0) ≤ scoreAt scores (perm.getD q 0))

instance isArgpartitionDecidable (scores : List ℚ) (kth : Nat) (perm : List Nat) :
    Decidable (IsArgpartition scores kth perm) := by
  unfold IsArgpartition
  infer_instance

/-- np.argpartition(scores, -top_k)[-top_k:]: the index positions of the top_k
largest scores.  The executable model realises the unspecified partition
permutation as the stable ascending argsort of all indices (one outcome the
contract permits; order-sensitive theorems quantify over IsArgpartition
instead), of which the last k entries are kept. -/
def argpartitionTop (scores : List ℚ) (k : Nat) : List Nat :=
  List.drop (scores.length - k)
    (List.insertionSort (lexAsc scores) (List.range scores.length))

/-- The selected indices after the final stable sort of the formatted results
by 'similarity score' descending: a stable sort under the non-strict
score-descending comparison, preserving the argpartition order among equal
scores. -/
def rankedIndices (scores : List ℚ) (k : Nat) : List Nat :=
  List.insertionSort (scoreGe scores) (argpartitionTop scores k)

/-- The result dictionary built for index i: the four entries of the literal
dict in the source, in source order. -/
def formatResult (r : BM25Retriever) (scores : List ℚ) (i : Nat) :
    List (String × ResultValue) :=
  [("similarity score", ResultValue.num (scoreAt scores i)),
   ("content path", ResultValue.str r.content_input_path),
   ("metadata", ResultValue.dict ((r.chunks.getD i { text := "", metadata := [] }).metadata)),
   ("text", ResultValue.str (chunkStr (r.chunks.getD i { text := "", metadata := [] })))]

/-- query: validates top_k, checks that the bm25 model is initialized,
tokenizes the query, scores every document, selects the top_k indices with
np.argpartition (which raises when top_k exceeds the number of scores),
formats each selected index and sorts the results by score descending. -/
def query (lg : ℚ → ℚ) (r : BM25Retriever) (q : String) (top_k : Int) :
    Except QueryError (List (List (String × ResultValue))) :=
  if top_k ≤ 0 then Except.error QueryError.invalidTopK
  else
    match r.bm25 with
    | none => Except.error QueryError.notInitialized
    | some m =>
        if ((getScores lg m (queryTokenize q)).length : Int) < top_k then
          Except.error QueryError.argpartitionKthOutOfBounds
        else
          Except.ok ((rankedIndices (getScores lg m (queryTokenize q)) top_k.toNat).map
            (formatResult r (getScores lg m (queryTokenize q))))

/-- The state after a successful process call is fully determined by the path
and the loaded chunks: every field is overwritten. -/
theorem process_ok_state (r : BM25Retriever) (path : String) (cs : List Chunk) :
    (process r path (Except.ok cs)).2 =
      { bm25 := some (builtIndex cs), content_input_path := path, chunks := cs } := rfl

/-- process stores its path argument first, so the stored path is the new one
whether or not the loader succeeds. -/
theorem process_path (r : BM25Retriever) (path : String)
    (loaded : Except String (List Chunk)) :
    ((process r path loaded).2).content_input_path = path := by
  cases loaded <;> rfl

/-- get_scores returns one score per corpus document. -/
theorem getScores_length (lg : ℚ → ℚ) (m : BM25Okapi) (qts : List String) :
    (getScores lg m qts).length = m.corpus.length := by
  simp [getScores]

/-- The index built by process has one tokenized document per chunk. -/
theorem builtIndex_length (chunks : List Chunk) :
    (builtIndex chunks).corpus.length = chunks.length := by
  simp [builtIndex]

/-- The ascending argsort of the score indices has no duplicates. -/
theorem argsort_nodup (scores : List ℚ) :
    (List.insertionSort (lexAsc scores) (List.range scores.length)).Nodup :=
  ((List.perm_insertionSort (lexAsc scores) (List.range scores.length)).nodup_iff).mpr
    (List.nodup_range scores.length)

/-- The indices selected by the argpartition slice have no duplicates. -/
theorem argpartitionTop_nodup (scores : List ℚ) (k : Nat) :
    (argpartitionTop scores k).Nodup :=
  (List.drop_sublist _ _).nodup (argsort_nodup scores)

/-- The final ranked index list has no duplicates: every result comes from a
distinct chunk index. -/
theorem rankedIndices_nodup (scores : List ℚ) (k : Nat) :
    (rankedIndices scores k).Nodup :=
  ((List.perm_insertionSort (scoreGe scores) (argpartitionTop scores k)).nodup_iff).mpr
    (argpartitionTop_nodup scores k)

/-- The length of the ranked index list: the argpartition slice keeps the last
k of the n index positions. -/
theorem rankedIndices_length (scores : List ℚ) (k : Nat) :
    (rankedIndices scores k).length = scores.length - (scores.length - k) := by
  rw [rankedIndices, List.length_insertionSort, argpartitionTop, List.length_drop,
    List.length_insertionSort, List.length_range]

/-- Every ranked index is a valid position in the score list. -/
theorem rankedIndices_mem_lt (scores : List ℚ) (k : Nat) (i : Nat)
    (h : i ∈ rankedIndices scores k) : i < scores.length := by
  have h2 : i ∈ argpartitionTop scores k :=
    ((List.perm_insertionSort (scoreGe scores) (argpartitionTop scores k)).mem_iff).mp h
  have h3 : i ∈ List.insertionSort (lexAsc scores) (List.range scores.length) :=
    (List.drop_sublist _ _).subset h2
  have h4 : i ∈ List.range scores.length :=
    ((List.perm_insertionSort (lexAsc scores) (List.range scores.length)).mem_iff).mp h3
  exact List.mem_range.mp h4

/-- The ranked index list is sorted by non-increasing score. -/
theorem rankedIndices_sorted (scores : List ℚ) (k : Nat) :
    (rankedIndices scores k).Sorted (scoreGe scores) :=
  List.sorted_insertionSort (scoreGe scores) (argpartitionTop scores k)

/-- The non-strict part of lexAsc: ascending positions in the stable ascending
argsort carry non-decreasing scores. -/
theorem lexAsc_le (scores : List ℚ) (i j : Nat) (h : lexAsc scores i j) :
    scoreAt scores i ≤ scoreAt scores j := by
  rcases h with h | ⟨h, _⟩
  · exact le_of_lt h
  · exact le_of_eq h

/-- The stable ascending argsort used by the executable model is one outcome
the np.argpartition contract permits, at every in-bounds kth. -/
theorem argsort_isArgpartition (scores : List ℚ) (kth : Nat)
    (hk : kth < scores.length) :
    IsArgpartition scores kth (List.insertionSort (lexAsc scores) (List.range scores.length)) := by
  have hperm := List.perm_insertionSort (lexAsc scores) (List.range scores.length)
  have hlen : (List.insertionSort (lexAsc scores) (List.range scores.length)).length =
      scores.length := by
    rw [List.length_insertionSort, List.length_range]
  have hsorted := List.sorted_insertionSort (lexAsc scores) (List.range scores.length)
  have hrel : ∀ p q : Nat, p < kth ∨ kth < q → p ≤ kth → kth ≤ q → q < scores.length →
      scoreAt scores
          ((List.insertionSort (lexAsc scores) (List.range scores.length)).getD p 0) ≤
        scoreAt scores
          ((List.insertionSort (lexAsc scores) (List.range scores.length)).getD q 0) := by
    intro p q hpq hp hq hqlt
    have hplt : p < scores.length := lt_of_le_of_lt hp (lt_of_le_of_lt hq hqlt)
    have hplt2 : p < (List.insertionSort (lexAsc scores) (List.range scores.length)).length := by
      rw [hlen]; exact hplt
    have hqlt2 : q < (List.insertionSort (lexAsc scores) (List.range scores.length)).length := by
      rw [hlen]; exact hqlt
    have hgp : (List.insertionSort (lexAsc scores) (List.range scores.length)).getD p 0 =
        (List.insertionSort (lexAsc scores) (List.range scores.length)).get ⟨p, hplt2⟩ := by
      rw [List.getD_eq_getElem?_getD, List.getElem?_eq_getElem hplt2]
      rfl
    have hgq : (List.insertionSort (lexAsc scores) (List.range scores.length)).getD q 0 =
        (List.insertionSort (lexAsc scores) (List.range scores.length)).get ⟨q, hqlt2⟩ := by
      rw [List.getD_eq_getElem?_getD, List.getElem?_eq_getElem hqlt2]
      rfl
    rw [hgp, hgq]
    have hpq2 : p < q := by omega
    exact lexAsc_le scores _ _
      (hsorted.rel_get_of_lt (show (⟨p, hplt2⟩ : Fin _) < ⟨q, hqlt2⟩ from hpq2))
  refine ⟨hperm, by rw [hlen]; exact hk, ?_, ?_⟩
  · intro p hp
    exact hrel p kth (Or.inl hp) (le_of_lt hp) (le_refl kth) hk
  · intro q hq hkq
    rw [hlen] at hq
    exact hrel kth q (Or.inr hkq) (le_refl kth) (le_of_lt hkq) hq

/-- A document containing no query term scores 0: each term contributes
IDF * (0 * (k1 + 1)) / (0 + ...) = 0. -/
theorem scoreDoc_eq_zero (lg : ℚ → ℚ) (m : BM25Okapi) (qts : List String)
    (d : List String) (h : ∀ t ∈ qts, t ∉ d) : scoreDoc lg m qts d = 0 := by
  unfold scoreDoc
  apply List.sum_eq_zero
  intro x hx
  rcases List.mem_map.mp hx with ⟨t, ht, rfl⟩
  unfold termScore tf
  rw [List.count_eq_zero.mpr (h t ht)]
  simp

/-- If no query term occurs in any document then every score is 0. -/
theorem getScores_all_zero (lg : ℚ → ℚ) (m : BM25Okapi) (qts : List String)
    (h : ∀ t ∈ qts, ∀ d ∈ m.corpus, t ∉ d) : ∀ x ∈ getScores lg m qts, x = 0 := by
  intro x hx
  rcases List.mem_map.mp hx with ⟨d, hd, rfl⟩
  exact scoreDoc_eq_zero lg m qts d (fun t ht => h t ht d hd)

/-- If every score is 0 then every score lookup is 0. -/
theorem scoreAt_eq_zero (scores : List ℚ) (h : ∀ x ∈ scores, x = 0) (i : Nat) :
    scoreAt scores i = 0 := by
  unfold scoreAt
  induction scores generalizing i with
  | nil => cases i <;> rfl
  | cons a l ih =>
      cases i with
      | zero => exact h a (List.mem_cons_self a l)
      | succ n => exact ih (fun x hx => h x (List.mem_cons_of_mem a hx)) n

/-- The tail of the source pipeline applied to an arbitrary argpartition
outcome perm: keep the slice [-top_k:] (drop the first kth entries of the
partitioned index array) and stable-sort it by score descending. -/
def selectedSorted (scores : List ℚ) (kth : Nat) (perm : List Nat) : List Nat :=
  List.insertionSort (scoreGe scores) (List.drop kth perm)

/-- A corpus in which documents 0 and 2 are identical, so they receive equal
scores for the query below. -/
def catChunks : List Chunk :=
  [{ text := "cat", metadata := [] }, { text := "x", metadata := [] },
   { text := "cat", metadata := [] }]

/-- The scores of catChunks for the query string cat, with the logarithm
instantiated as the identity: documents 0 and 2 tie. -/
def catScores : List ℚ :=
  getScores (fun x => x) (builtIndex catChunks) (queryTokenize "cat")

/-- C1 counterexample: with the corpus catChunks ingested, the query cat and
top_k = 2 (kth = 1), the permutation [1, 2, 0] is an outcome the documented
np.argpartition contract permits; running the rest of the source pipeline on
it (slice, then stable descending sort) returns document 2 before document 0
although their scores are equal, so the result sequence is not ordered by the
claimed strict (score descending, document id ascending) order: the code does
not guarantee the ascending-id tie-break the claim asserts. -/
theorem C1_counterexample :
    IsArgpartition catScores 1 [1, 2, 0] ∧
    selectedSorted catScores 1 [1, 2, 0] = [2, 0] ∧
    scoreAt catScores 2 = scoreAt catScores 0 ∧
    ¬ List.Sorted (lexDescStrict catScores) (selectedSorted catScores 1 [1, 2, 0]) := by
  with_unfolding_all decide

/-- C1 amended: after ingesting a non-empty corpus via process, for a query
with 1 ≤ top_k ≤ N the code returns exactly top_k results, one per distinct
valid chunk index, ordered by non-increasing score, under every argpartition
outcome the numpy contract permits; the order among equal scores follows the
unspecified argpartition order.  The executable query realises one such
outcome, the stable ascending argsort, which is proved contract-valid.
(For top_k above N the code raises instead of returning; that input is
settled under C2.) -/
theorem C1_query_topk_sorted_amended (lg : ℚ → ℚ) (r : BM25Retriever) (path : String)
    (chunks : List Chunk) (q : String) (top_k : Int) (perm : List Nat)
    (hne : chunks ≠ []) (h1 : 1 ≤ top_k) (hN : top_k ≤ (chunks.length : Int))
    (hperm : IsArgpartition (getScores lg (builtIndex chunks) (queryTokenize q))
      (chunks.length - top_k.toNat) perm) :
    query lg (process r path (Except.ok chunks)).2 q top_k =
      Except.ok ((rankedIndices (getScores lg (builtIndex chunks) (queryTokenize q))
        top_k.toNat).map (formatResult (process r path (Except.ok chunks)).2
          (getScores lg (builtIndex chunks) (queryTokenize q)))) ∧
    IsArgpartition (getScores lg (builtIndex chunks) (queryTokenize q))
      (chunks.length - top_k.toNat)
      (List.insertionSort (lexAsc (getScores lg (builtIndex chunks) (queryTokenize q)))
        (List.range (getScores lg (builtIndex chunks) (queryTokenize q)).length)) ∧
    rankedIndices (getScores lg (builtIndex chunks) (queryTokenize q)) top_k.toNat =
      selectedSorted (getScores lg (builtIndex chunks) (queryTokenize q))
        (chunks.length - top_k.toNat)
        (List.insertionSort (lexAsc (getScores lg (builtIndex chunks) (queryTokenize q)))
          (List.range (getScores lg (builtIndex chunks) (queryTokenize q)).length)) ∧
    (selectedSorted (getScores lg (builtIndex chunks) (queryTokenize q))
      (chunks.length - top_k.toNat) perm).length = top_k.toNat ∧
    (selectedSorted (getScores lg (builtIndex chunks) (queryTokenize q))
      (chunks.length - top_k.toNat) perm).Nodup ∧
    (∀ i ∈ selectedSorted (getScores lg (builtIndex chunks) (queryTokenize q))
      (chunks.length - top_k.toNat) perm, i < chunks.length) ∧
    (selectedSorted (getScores lg (builtIndex chunks) (queryTokenize q))
      (chunks.length - top_k.toNat) perm).Sorted
        (scoreGe (getScores lg (builtIndex chunks) (queryTokenize q))) := by
  have hlen : (getScores lg (builtIndex chunks) (queryTokenize q)).length = chunks.length := by
    rw [getScores_length, builtIndex_length]
  have hplen : perm.length = chunks.length := by
    rw [hperm.1.length_eq, List.length_range, hlen]
  have hpnodup : perm.Nodup :=
    (hperm.1.nodup_iff).mpr (List.nodup_range _)
  refine ⟨?_, ?_, ?_, ?_, ?_, ?_, List.sorted_insertionSort _ _⟩
  · rw [process_ok_state]
    unfold query
    rw [if_neg (by omega)]
    dsimp only
    rw [if_neg (by rw [hlen]; omega)]
  · exact argsort_isArgpartition _ _ (by omega)
  · rw [rankedIndices, argpartitionTop, selectedSorted, hlen]
  · rw [selectedSorted, List.length_insertionSort, List.length_drop, hplen]
    omega
  · exact ((List.perm_insertionSort _ _).nodup_iff).mpr
      ((List.drop_sublist _ _).nodup hpnodup)
  · intro i hi
    have h2 : i ∈ List.drop (chunks.length - top_k.toNat) perm :=
      ((List.perm_insertionSort _ _).mem_iff).mp hi
    have h3 : i ∈ perm := (List.drop_sublist _ _).subset h2
    have h4 : i ∈ List.range (getScores lg (builtIndex chunks) (queryTokenize q)).length :=
      (hperm.1.mem_iff).mp h3
    have h5 := List.mem_range.mp h4
    omega

/-- A one-chunk corpus used by concrete witnesses. -/
def oneChunk : List Chunk := [{ text := "a", metadata := [] }]

/-- C1 witness: the amended theorem applied to a concrete one-document corpus
and the (only) contract-valid argpartition outcome for it. -/
theorem C1_amended_witness :
    (oneChunk ≠ []) ∧ ((1 : Int) ≤ 1) ∧ ((1 : Int) ≤ (oneChunk.length : Int)) ∧
    IsArgpartition (getScores (fun _ => (0 : ℚ)) (builtIndex oneChunk) (queryTokenize "a"))
      (oneChunk.length - (1 : Int).toNat) [0] ∧
    (query (fun _ => (0 : ℚ)) (process BM25Retriever.init "p" (Except.ok oneChunk)).2 "a" 1 =
      Except.ok ((rankedIndices (getScores (fun _ => (0 : ℚ)) (builtIndex oneChunk)
        (queryTokenize "a")) (1 : Int).toNat).map
          (formatResult (process BM25Retriever.init "p" (Except.ok oneChunk)).2
            (getScores (fun _ => (0 : ℚ)) (builtIndex oneChunk) (queryTokenize "a")))) ∧
    IsArgpartition (getScores (fun _ => (0 : ℚ)) (builtIndex oneChunk) (queryTokenize "a"))
      (oneChunk.length - (1 : Int).toNat)
      (List.insertionSort (lexAsc (getScores (fun _ => (0 : ℚ)) (builtIndex oneChunk)
        (queryTokenize "a")))
        (List.range (getScores (fun _ => (0 : ℚ)) (builtIndex oneChunk)
          (queryTokenize "a")).length)) ∧
    rankedIndices (getScores (fun _ => (0 : ℚ)) (builtIndex oneChunk) (queryTokenize "a"))
        (1 : Int).toNat =
      selectedSorted (getScores (fun _ => (0 : ℚ)) (builtIndex oneChunk) (queryTokenize "a"))
        (oneChunk.length - (1 : Int).toNat)
        (List.insertionSort (lexAsc (getScores (fun _ => (0 : ℚ)) (builtIndex oneChunk)
          (queryTokenize "a")))
          (List.range (getScores (fun _ => (0 : ℚ)) (builtIndex oneChunk)
            (queryTokenize "a")).length)) ∧
    (selectedSorted (getScores (fun _ => (0 : ℚ)) (builtIndex oneChunk) (queryTokenize "a"))
      (oneChunk.length - (1 : Int).toNat) [0]).length = (1 : Int).toNat ∧
    (selectedSorted (getScores (fun _ => (0 : ℚ)) (builtIndex oneChunk) (queryTokenize "a"))
      (oneChunk.length - (1 : Int).toNat) [0]).Nodup ∧
    (∀ i ∈ selectedSorted (getScores (fun _ => (0 : ℚ)) (builtIndex oneChunk)
      (queryTokenize "a")) (oneChunk.length - (1 : Int).toNat) [0], i < oneChunk.length) ∧
    (selectedSorted (getScores (fun _ => (0 : ℚ)) (builtIndex oneChunk) (queryTokenize "a"))
      (oneChunk.length - (1 : Int).toNat) [0]).Sorted
        (scoreGe (getScores (fun _ => (0 : ℚ)) (builtIndex oneChunk) (queryTokenize "a")))) :=
  ⟨by decide, by decide, by decide, by with_unfolding_all decide,
    C1_query_topk_sorted_amended (fun _ => (0 : ℚ)) BM25Retriever.init "p" oneChunk "a" 1 [0]
      (by decide) (by decide) (by decide) (by with_unfolding_all decide)⟩

/-- A three-chunk corpus used to exercise top_k above the corpus size. -/
def threeChunks : List Chunk :=
  [{ text := "d1", metadata := [] }, { text := "d2", metadata := [] },
   { text := "d3", metadata := [] }]

/-- C2: the claim says that top_k above the corpus size succeeds and returns
all documents; on the code, np.argpartition(scores, -top_k) raises when top_k
exceeds the number of scores, so query with top_k = 5 on a corpus of 3
documents raises instead of returning the 3 documents. -/
theorem C2_topk_exceeds_corpus_raises :
    query (fun x => x) (process BM25Retriever.init "p" (Except.ok threeChunks)).2 "w" 5 =
      Except.error QueryError.argpartitionKthOutOfBounds := by rfl

/-- C3: the claim says that after ingesting an empty corpus a query with
top_k = 1 returns an empty list without error; on the code, the score array is
empty, so np.argpartition(scores, -1) raises (kth out of bounds), and query
raises instead of returning an empty list. -/
theorem C3_empty_corpus_query_raises :
    query (fun x => x) (process BM25Retriever.init "p" (Except.ok [])).2 "w" 1 =
      Except.error QueryError.argpartitionKthOutOfBounds := by rfl

/-- C4: on a retriever whose bm25 model was never initialized by process, any
query with positive top_k fails with the model-not-initialized error and
returns no results. -/
theorem C4_query_before_process_not_ready (lg : ℚ → ℚ) (r : BM25Retriever)
    (q : String) (top_k : Int) (hk : 0 < top_k) (hr : r.bm25 = none) :
    query lg r q top_k = Except.error QueryError.notInitialized := by
  unfold query
  rw [if_neg (by omega), hr]

/-- C4 witness: the theorem applied to the freshly constructed retriever. -/
theorem C4_witness :
    ((0 : Int) < 1) ∧ (BM25Retriever.init.bm25 = none) ∧
    query (fun x => x) BM25Retriever.init "w" 1 = Except.error QueryError.notInitialized :=
  ⟨by decide, rfl,
    C4_query_before_process_not_ready (fun x => x) BM25Retriever.init "w" 1 (by decide) rfl⟩

/-- C5: query fails with the invalid top_k error exactly when top_k ≤ 0; this
check is the first one performed, so it fires for every retriever state and
never fires for a positive top_k. -/
theorem C5_invalid_topk_iff (lg : ℚ → ℚ) (r : BM25Retriever) (q : String)
    (top_k : Int) :
    query lg r q top_k = Except.error QueryError.invalidTopK ↔ top_k ≤ 0 := by
  unfold query
  by_cases h : top_k ≤ 0
  · simp [h]
  · rw [if_neg h]
    constructor
    · intro hq
      exfalso
      cases hbm : r.bm25 with
      | none => rw [hbm] at hq; simp at hq
      | some m =>
          rw [hbm] at hq
          dsimp only at hq
          by_cases hg : ((getScores lg m (queryTokenize q)).length : Int) < top_k
          · rw [if_pos hg] at hq; simp at hq
          · rw [if_neg hg] at hq; simp at hq
    · intro h0
      exact absurd h0 h

/-- C6: after ingesting a non-empty corpus, a query none of whose terms occurs
in any chunk still succeeds (for 1 ≤ top_k ≤ N, where the selection is
defined), returns top_k results rather than an empty list or an error, and
every returned result carries score 0: zero-scoring documents are included in
the output, not filtered. -/
theorem C6_no_match_zero_scores (lg : ℚ → ℚ) (r : BM25Retriever) (path : String)
    (chunks : List Chunk) (q : String) (top_k : Int)
    (hne : chunks ≠ []) (h1 : 1 ≤ top_k) (hN : top_k ≤ (chunks.length : Int))
    (hmiss : ∀ t ∈ queryTokenize q, ∀ c ∈ chunks, t ∉ processTokenize (chunkStr c)) :
    ∃ rs, query lg (process r path (Except.ok chunks)).2 q top_k = Except.ok rs ∧
      rs ≠ [] ∧ rs.length = top_k.toNat ∧
      ∀ res ∈ rs, ("similarity score", ResultValue.num 0) ∈ res := by
  have hlen : (getScores lg (builtIndex chunks) (queryTokenize q)).length = chunks.length := by
    rw [getScores_length, builtIndex_length]
  have hzero : ∀ x ∈ getScores lg (builtIndex chunks) (queryTokenize q), x = 0 := by
    apply getScores_all_zero
    intro t ht d hd
    rcases List.mem_map.mp hd with ⟨c, hc, rfl⟩
    exact hmiss t ht c hc
  refine ⟨(rankedIndices (getScores lg (builtIndex chunks) (queryTokenize q)) top_k.toNat).map
      (formatResult (process r path (Except.ok chunks)).2
        (getScores lg (builtIndex chunks) (queryTokenize q))), ?_, ?_, ?_, ?_⟩
  · rw [process_ok_state]
    unfold query
    rw [if_neg (by omega)]
    dsimp only
    rw [if_neg (by rw [hlen]; omega)]
  · have hl : ((rankedIndices (getScores lg (builtIndex chunks) (queryTokenize q))
        top_k.toNat).map
        (formatResult (process r path (Except.ok chunks)).2
          (getScores lg (builtIndex chunks) (queryTokenize q)))).length = top_k.toNat := by
      rw [List.length_map, rankedIndices_length]
      omega
    intro hnil
    rw [hnil] at hl
    simp at hl
    omega
  · rw [List.length_map, rankedIndices_length]
    omega
  · intro res hres
    rcases List.mem_map.mp hres with ⟨i, _, rfl⟩
    unfold formatResult
    rw [scoreAt_eq_zero _ hzero i]
    exact List.mem_cons_self _ _

/-- C6 witness: the theorem applied to a one-document corpus and a query term
absent from it. -/
theorem C6_witness :
    (oneChunk ≠ []) ∧ ((1 : Int) ≤ 1) ∧ ((1 : Int) ≤ (oneChunk.length : Int)) ∧
    (∀ t ∈ queryTokenize "z", ∀ c ∈ oneChunk, t ∉ processTokenize (chunkStr c)) ∧
    (∃ rs, query (fun x => x) (process BM25Retriever.init "p" (Except.ok oneChunk)).2 "z" 1 =
        Except.ok rs ∧
      rs ≠ [] ∧ rs.length = (1 : Int).toNat ∧
      ∀ res ∈ rs, ("similarity score", ResultValue.num 0) ∈ res) :=
  ⟨by decide, by decide, by decide, by decide,
    C6_no_match_zero_scores (fun x => x) BM25Retriever.init "p" oneChunk "z" 1
      (by decide) (by decide) (by decide) (by decide)⟩

/-- A retriever holding a previously built index, used to exhibit the effect
of a failing process call. -/
def priorRetriever : BM25Retriever :=
  { bm25 := some (builtIndex oneChunk), content_input_path := "old", chunks := oneChunk }

/-- C7 counterexample: the claim says a failed process leaves the content path
exactly as before; on the code, process assigns content_input_path before the
loader runs, so after a failing call the stored path is the new argument, not
the previous one. -/
theorem C7_counterexample :
    ((process priorRetriever "new" (Except.error "load failed")).2).content_input_path ≠
      priorRetriever.content_input_path := by decide

/-- C7 amended: a process call whose loader fails reports the loader error and
leaves the previous bm25 index and chunks unchanged, but content_input_path
has already been overwritten with the new path argument. -/
theorem C7_failed_process_state (r : BM25Retriever) (path e : String) :
    (process r path (Except.error e)).1 = some e ∧
    ((process r path (Except.error e)).2).bm25 = r.bm25 ∧
    ((process r path (Except.error e)).2).chunks = r.chunks ∧
    ((process r path (Except.error e)).2).content_input_path = path :=
  ⟨rfl, rfl, rfl, rfl⟩

/-- splitChars always yields at least one token. -/
theorem splitChars_ne_nil (sep : Char) (cs : List Char) : splitChars sep cs ≠ [] := by
  cases cs with
  | nil => simp [splitChars]
  | cons c rest =>
      unfold splitChars
      by_cases h : c = sep
      · simp [h]
      · rw [if_neg h]
        cases splitChars sep rest <;> simp

/-- Rejoining the split pieces with the separator restores the input: the
split loses nothing and cuts exactly at the separator occurrences. -/
theorem joinSep_splitChars (sep : Char) (cs : List Char) :
    joinSep sep (splitChars sep cs) = cs := by
  induction cs with
  | nil => rfl
  | cons c rest ih =>
      unfold splitChars
      by_cases h : c = sep
      · rw [if_pos h]
        rcases List.exists_cons_of_ne_nil (splitChars_ne_nil sep rest) with ⟨t, ts, hts⟩
        rw [hts] at ih ⊢
        rw [show joinSep sep ([] :: t :: ts) = sep :: joinSep sep (t :: ts) from rfl, ih, h]
      · rw [if_neg h]
        rcases List.exists_cons_of_ne_nil (splitChars_ne_nil sep rest) with ⟨t, ts, hts⟩
        rw [hts] at ih ⊢
        show joinSep sep ((c :: t) :: ts) = c :: rest
        cases ts with
        | nil =>
            have ht : t = rest := ih
            rw [show joinSep sep [c :: t] = c :: t from rfl, ht]
        | cons u us =>
            rw [show joinSep sep ((c :: t) :: u :: us) =
              (c :: t) ++ sep :: joinSep sep (u :: us) from rfl]
            rw [show joinSep sep (t :: u :: us) = t ++ sep :: joinSep sep (u :: us) from rfl] at ih
            rw [List.cons_append, ih]

/-- No token produced by splitChars contains the separator. -/
theorem splitChars_not_mem (sep : Char) (cs : List Char) :
    ∀ t ∈ splitChars sep cs, sep ∉ t := by
  induction cs with
  | nil => intro t ht; simp [splitChars] at ht; simp [ht]
  | cons c rest ih =>
      intro t ht
      unfold splitChars at ht
      by_cases h : c = sep
      · rw [if_pos h] at ht
        rcases List.mem_cons.mp ht with rfl | ht2
        · simp
        · exact ih t ht2
      · rw [if_neg h] at ht
        rcases hts : splitChars sep rest with _ | ⟨u, us⟩
        · exact absurd hts (splitChars_ne_nil sep rest)
        · rw [hts] at ht
          rcases List.mem_cons.mp ht with rfl | ht2
          · intro hmem
            rcases List.mem_cons.mp hmem with rfl | hmem2
            · exact h rfl
            · exact ih u (by rw [hts]; exact List.mem_cons_self u us) hmem2
          · exact ih t (by rw [hts]; exact List.mem_cons_of_mem u ht2)

/-- C8: the tokenization applied to document chunks in process and the
tokenization applied to the query string in query are the same deterministic
function, and it splits the text exactly at the space separator: no token
contains the separator, and rejoining the tokens with the separator restores
the input string. -/
theorem C8_tokenizer_consistent :
    (∀ s : String, processTokenize s = queryTokenize s) ∧
    (∀ s : String, queryTokenize s = (splitChars sepChar s.data).map String.mk) ∧
    (∀ cs : List Char, joinSep sepChar (splitChars sepChar cs) = cs) ∧
    (∀ cs : List Char, ∀ t ∈ splitChars sepChar cs, sepChar ∉ t) :=
  ⟨fun _ => rfl, fun _ => rfl, joinSep_splitChars sepChar, splitChars_not_mem sepChar⟩

/-- C9: process is idempotent: running process twice with the same path and
the same loaded corpus produces exactly the state produced by running it once,
so every query returns identical scores and identical results. -/
theorem C9_process_idempotent (lg : ℚ → ℚ) (r : BM25Retriever) (path : String)
    (chunks : List Chunk) (q : String) (top_k : Int) :
    (process (process r path (Except.ok chunks)).2 path (Except.ok chunks)).2 =
      (process r path (Except.ok chunks)).2 ∧
    query lg (process (process r path (Except.ok chunks)).2 path (Except.ok chunks)).2 q top_k =
      query lg (process r path (Except.ok chunks)).2 q top_k :=
  ⟨rfl, rfl⟩

/-- C10: every result of a successful query is a dictionary with exactly the
four keys of the source literal, in source order, and its content path entry is
the content_input_path argument of the most recent process call. -/
theorem C10_result_keys_and_path (lg : ℚ → ℚ) (r : BM25Retriever) (path : String)
    (loaded : Except String (List Chunk)) (q : String) (top_k : Int)
    (rs : List (List (String × ResultValue)))
    (hq : query lg (process r path loaded).2 q top_k = Except.ok rs) :
    ∀ res ∈ rs,
      res.map Prod.fst = ["similarity score", "content path", "metadata", "text"] ∧
      ("content path", ResultValue.str path) ∈ res := by
  have hpath := process_path r path loaded
  unfold query at hq
  by_cases h : top_k ≤ 0
  · rw [if_pos h] at hq; simp at hq
  · rw [if_neg h] at hq
    cases hbm : ((process r path loaded).2).bm25 with
    | none => rw [hbm] at hq; simp at hq
    | some m =>
        rw [hbm] at hq
        dsimp only at hq
        by_cases hg : ((getScores lg m (queryTokenize q)).length : Int) < top_k
        · rw [if_pos hg] at hq; simp at hq
        · rw [if_neg hg] at hq
          rw [Except.ok.injEq] at hq
          subst hq
          intro res hres
          rcases List.mem_map.mp hres with ⟨i, _, rfl⟩
          constructor
          · rfl
          · unfold formatResult
            rw [hpath]
            exact List.mem_cons_of_mem _ (List.mem_cons_self _ _)

/-- The concrete result list of the C10 witness query. -/
def C10rs : List (List (String × ResultValue)) :=
  [[("similarity score", ResultValue.num 0), ("content path", ResultValue.str "p"),
    ("metadata", ResultValue.dict []), ("text", ResultValue.str "a")]]

/-- C10 witness: the theorem applied to a concrete successful query. -/
theorem C10_witness :
    (query (fun _ => (0 : ℚ)) (process BM25Retriever.init "p" (Except.ok oneChunk)).2 "a" 1 =
      Except.ok C10rs) ∧
    (∀ res ∈ C10rs,
      res.map Prod.fst = ["similarity score", "content path", "metadata", "text"] ∧
      ("content path", ResultValue.str "p") ∈ res) :=
  ⟨by with_unfolding_all rfl,
    C10_result_keys_and_path (fun _ => (0 : ℚ)) BM25Retriever.init "p" (Except.ok oneChunk)
      "a" 1 C10rs (by with_unfolding_all rfl)⟩

end CamelBM25
